import Mathlib

/-!
Verification of the session-persistence and browser-management layer of
`Selenium2Library/keywords/browsermanagement.py`.

Strings from the Python code are modelled as `List Char`; Python `dict`s are
modelled as insertion-ordered association lists with in-place overwrite on
re-insertion; the filesystem is an association list from file names to raw
character contents.  Fallible operations return `Except`/`Option`.
-/

namespace Selenium2Library

/-- Python `dict` assignment `d[k] = v`: overwrite in place when the key is
present, else append at the end (insertion order preserved). -/
def dictInsert {α β : Type} [DecidableEq α] (d : List (α × β)) (k : α) (v : β) :
    List (α × β) :=
  if d.any (fun p => p.1 = k) then
    d.map (fun p => if p.1 = k then (k, v) else p)
  else
    d ++ [(k, v)]

/-- Python `d.get(k)` / `d[k]`: first (hence, by the overwrite-in-place
discipline of `dictInsert`, unique) binding of `k`. -/
def dictGet {α β : Type} [DecidableEq α] (d : List (α × β)) (k : α) : Option β :=
  (d.find? (fun p => p.1 = k)).map (fun p => p.2)

theorem find?_map_replace {α β : Type} [DecidableEq α]
    (d : List (α × β)) (k k' : α) (v : β) (hne : k' ≠ k) :
    (d.map (fun p => if p.1 = k then (k, v) else p)).find? (fun p => p.1 = k') =
      d.find? (fun p => p.1 = k') := by
  induction d with
  | nil => rfl
  | cons p d ih =>
    by_cases hpk : p.1 = k
    · rw [List.map_cons, if_pos hpk,
        List.find?_cons_of_neg _ (by simpa using hne.symm),
        List.find?_cons_of_neg _ (by simp only [hpk, decide_eq_true_eq]; exact hne.symm)]
      exact ih
    · rw [List.map_cons, if_neg hpk]
      by_cases hp : p.1 = k'
      · rw [List.find?_cons_of_pos _ (by simp [hp]), List.find?_cons_of_pos _ (by simp [hp])]
      · rw [List.find?_cons_of_neg _ (by simp [hp]), List.find?_cons_of_neg _ (by simp [hp])]
        exact ih

theorem find?_map_replace_self {α β : Type} [DecidableEq α]
    (d : List (α × β)) (k : α) (v : β) (h : d.any (fun p => p.1 = k)) :
    (d.map (fun p => if p.1 = k then (k, v) else p)).find? (fun p => p.1 = k) =
      some (k, v) := by
  induction d with
  | nil => simp at h
  | cons p d ih =>
    by_cases hpk : p.1 = k
    · rw [List.map_cons, if_pos hpk, List.find?_cons_of_pos _ (by simp)]
    · rw [List.map_cons, if_neg hpk, List.find?_cons_of_neg _ (by simp [hpk])]
      apply ih
      simpa [hpk] using h

theorem dictGet_dictInsert {α β : Type} [DecidableEq α]
    (d : List (α × β)) (k k' : α) (v : β) :
    dictGet (dictInsert d k v) k' = if k' = k then some v else dictGet d k' := by
  unfold dictInsert dictGet
  by_cases hany : d.any (fun p => p.1 = k)
  · rw [if_pos hany]
    by_cases hk : k' = k
    · subst hk
      rw [find?_map_replace_self d k' v hany, if_pos rfl]
      rfl
    · rw [find?_map_replace d k k' v hk, if_neg hk]
  · rw [if_neg hany]
    have hnone : d.find? (fun p => p.1 = k) = none := by
      rw [List.find?_eq_none]
      intro x hx
      simp only [List.any_eq_true, not_exists, not_and] at hany
      simpa using hany x hx
    by_cases hk : k' = k
    · subst hk
      rw [List.find?_append, hnone, if_pos rfl]
      simp [List.find?]
    · rw [List.find?_append, if_neg hk]
      have h1 : List.find? (fun p => p.1 = k') [(k, v)] = none := by
        simp only [List.find?, decide_eq_false (fun h : k = k' => hk h.symm)]
      rw [h1]
      simp

/-- Python `s.split(sep)` for a one-character separator (the source only ever
splits on `","`). -/
def pySplit (sep : Char) : List Char → List (List Char)
  | [] => [[]]
  | c :: cs =>
    if c = sep then
      [] :: pySplit sep cs
    else
      match pySplit sep cs with
      | [] => [[c]]
      | r :: rs => (c :: r) :: rs

/-- Python `s.split(sep, 1)` for a one-character separator: split at the first
occurrence only; `none` when the separator does not occur (in which case the
source's 2-tuple unpacking raises `ValueError`). -/
def pySplitFirst (sep : Char) : List Char → Option (List Char × List Char)
  | [] => none
  | c :: cs =>
    if c = sep then
      some ([], cs)
    else
      (pySplitFirst sep cs).map (fun p => (c :: p.1, p.2))

/-- Python `str.strip()`: remove leading and trailing whitespace. -/
def pyStrip (s : List Char) : List Char :=
  ((s.dropWhile Char.isWhitespace).reverse.dropWhile Char.isWhitespace).reverse

theorem pySplit_cons (sep c : Char) (cs : List Char) :
    pySplit sep (c :: cs) =
      if c = sep then [] :: pySplit sep cs
      else
        match pySplit sep cs with
        | [] => [[c]]
        | r :: rs => (c :: r) :: rs := rfl

theorem pySplit_no_sep (sep : Char) (s : List Char) (h : sep ∉ s) :
    pySplit sep s = [s] := by
  induction s with
  | nil => rfl
  | cons c cs ih =>
    simp only [List.mem_cons, not_or] at h
    rw [pySplit_cons, if_neg (fun hc => h.1 hc.symm), ih h.2]

theorem pySplit_append_sep (sep : Char) (s t : List Char) (h : sep ∉ s) :
    pySplit sep (s ++ sep :: t) = s :: pySplit sep t := by
  induction s with
  | nil => simp [pySplit_cons]
  | cons c cs ih =>
    simp only [List.mem_cons, not_or] at h
    rw [List.cons_append, pySplit_cons, if_neg (fun hc => h.1 hc.symm), ih h.2]

theorem pySplitFirst_cons (sep c : Char) (cs : List Char) :
    pySplitFirst sep (c :: cs) =
      if c = sep then some ([], cs)
      else (pySplitFirst sep cs).map (fun p => (c :: p.1, p.2)) := rfl

theorem pySplitFirst_append (sep : Char) (k v : List Char) (h : sep ∉ k) :
    pySplitFirst sep (k ++ sep :: v) = some (k, v) := by
  induction k with
  | nil => simp [pySplitFirst_cons]
  | cons c cs ih =>
    simp only [List.mem_cons, not_or] at h
    rw [List.cons_append, pySplitFirst_cons, if_neg (fun hc => h.1 hc.symm), ih h.2]
    rfl

theorem pyStrip_of_no_ws (s : List Char) (h : ∀ c ∈ s, ¬ c.isWhitespace) :
    pyStrip s = s := by
  unfold pyStrip
  have h1 : s.dropWhile Char.isWhitespace = s := by
    cases s with
    | nil => rfl
    | cons c cs =>
      rw [List.dropWhile_cons_of_neg]
      simp only [Bool.not_eq_true]
      exact Bool.not_eq_true _ |>.mp (h c (List.mem_cons_self c cs))
  rw [h1]
  have h2 : s.reverse.dropWhile Char.isWhitespace = s.reverse := by
    cases hr : s.reverse with
    | nil => rfl
    | cons c cs =>
      rw [List.dropWhile_cons_of_neg]
      have hc : c ∈ s := by
        rw [← List.mem_reverse, hr]; exact List.mem_cons_self c cs
      simp only [Bool.not_eq_true]
      exact Bool.not_eq_true _ |>.mp (h c hc)
  rw [h2, List.reverse_reverse]

/-- Python `file.readline()` on the remaining contents: the first line
including its trailing newline (or everything when there is no newline, in
particular `""` at end of file), together with the rest of the contents. -/
def readline : List Char → List Char × List Char
  | [] => ([], [])
  | c :: cs =>
    if c = '\n' then ([c], cs)
    else
      let r := readline cs
      (c :: r.1, r.2)

/-- Python `line.replace("\n", "").replace("\r", "")` as applied by
`restore_webdriver` to each line read back from a session file. -/
def removeNLCR (s : List Char) : List Char :=
  s.filter (fun c => ¬ (c = '\n' ∨ c = '\r'))

theorem readline_cons (c : Char) (cs : List Char) :
    readline (c :: cs) =
      if c = '\n' then ([c], cs)
      else ((c :: (readline cs).1, (readline cs).2)) := rfl

theorem readline_append (s t : List Char) (h : '\n' ∉ s) :
    readline (s ++ '\n' :: t) = (s ++ ['\n'], t) := by
  induction s with
  | nil => simp [readline_cons]
  | cons c cs ih =>
    simp only [List.mem_cons, not_or] at h
    rw [List.cons_append, readline_cons, if_neg (fun hc => h.1 hc.symm), ih h.2]
    rfl

theorem removeNLCR_line (s : List Char) (h : '\n' ∉ s ∧ '\r' ∉ s) :
    removeNLCR (s ++ ['\n']) = s := by
  unfold removeNLCR
  rw [List.filter_append]
  have h1 : s.filter (fun c => ¬ (c = '\n' ∨ c = '\r')) = s := by
    rw [List.filter_eq_self]
    intro c hc
    simp only [decide_eq_true_eq, not_or]
    exact ⟨fun he => h.1 (he ▸ hc), fun he => h.2 (he ▸ hc)⟩
  rw [h1]
  simp

theorem removeNLCR_of_clean (s : List Char) (h : '\n' ∉ s ∧ '\r' ∉ s) :
    removeNLCR s = s := by
  unfold removeNLCR
  rw [List.filter_eq_self]
  intro c hc
  simp only [decide_eq_true_eq, not_or]
  exact ⟨fun he => h.1 (he ▸ hc), fun he => h.2 (he ▸ hc)⟩

/-! ## Filesystem model

The working directory is an association list from file names to raw contents.
`open(f, 'w+')` truncates/creates, `open(f, 'r+')` fails when the file does not
exist, `os.remove` deletes. -/

/-- The filesystem: file name to raw character contents. -/
abbrev FS := List (String × List Char)

def fsRead (fs : FS) (name : String) : Option (List Char) :=
  (fs.find? (fun p => p.1 = name)).map (fun p => p.2)

def fsWrite (fs : FS) (name : String) (content : List Char) : FS :=
  (name, content) :: fs.filter (fun p => ¬ p.1 = name)

def fsRemove (fs : FS) (name : String) : FS :=
  fs.filter (fun p => ¬ p.1 = name)

theorem fsRead_fsWrite (fs : FS) (name : String) (content : List Char) :
    fsRead (fsWrite fs name content) name = some content := by
  unfold fsRead fsWrite
  rw [List.find?_cons_of_pos _ (by simp)]
  rfl

theorem fsRead_fsRemove (fs : FS) (name : String) :
    fsRead (fsRemove fs name) name = none := by
  unfold fsRead fsRemove
  have hnone : (fs.filter (fun p => ¬ p.1 = name)).find? (fun p => p.1 = name) = none := by
    rw [List.find?_eq_none]
    intro p hp
    have := List.of_mem_filter hp
    simpa using this
  rw [hnone]
  rfl

/-! ## `_parse_capabilities_string` (browsermanagement.py lines 801-814)

```python
def _parse_capabilities_string(self, capabilities_string):
    desired_capabilities = {}
    if not capabilities_string:
        return desired_capabilities
    for cap in capabilities_string.split(","):
        (key, value) = cap.split(":", 1)
        desired_capabilities[key.strip()] = value.strip()
    return desired_capabilities
```

A pair without a colon makes the 2-tuple unpacking raise `ValueError`,
modelled as `none`. -/

/-- The `for cap in ...` loop body of `_parse_capabilities_string`. -/
def parseCapsLoop : List (List Char) → List (List Char × List Char) →
    Option (List (List Char × List Char))
  | [], d => some d
  | cap :: rest, d =>
    match pySplitFirst ':' cap with
    | none => none
    | some (key, value) => parseCapsLoop rest (dictInsert d (pyStrip key) (pyStrip value))

/-- `_parse_capabilities_string`, shallow embedding. -/
def _parse_capabilities_string (capabilities_string : List Char) :
    Option (List (List Char × List Char)) :=
  if capabilities_string.isEmpty then some []
  else parseCapsLoop (pySplit ',' capabilities_string) []

/-- Rendering of a `key:value,key:value` capabilities string from pairs. -/
def capsRender : List (List Char × List Char) → List Char
  | [] => []
  | [p] => p.1 ++ ':' :: p.2
  | p :: rest => (p.1 ++ ':' :: p.2) ++ ',' :: capsRender rest

/-- Python-dict accumulation of the parsed (trimmed) pairs, in order. -/
def capsDict (pairs : List (List Char × List Char)) : List (List Char × List Char) :=
  pairs.foldl (fun d p => dictInsert d (pyStrip p.1) (pyStrip p.2)) []

theorem capsRender_cons_cons (p q : List Char × List Char)
    (rest : List (List Char × List Char)) :
    capsRender (p :: q :: rest) = (p.1 ++ ':' :: p.2) ++ ',' :: capsRender (q :: rest) := rfl

theorem pySplit_capsRender (pairs : List (List Char × List Char))
    (hne : pairs ≠ [])
    (hk : ∀ p ∈ pairs, ',' ∉ p.1) (hv : ∀ p ∈ pairs, ',' ∉ p.2) :
    pySplit ',' (capsRender pairs) = pairs.map (fun p => p.1 ++ ':' :: p.2) := by
  induction pairs with
  | nil => exact absurd rfl hne
  | cons p rest ih =>
    have hchunk : ',' ∉ p.1 ++ ':' :: p.2 := by
      simp only [List.mem_append, List.mem_cons, not_or]
      exact ⟨hk p (List.mem_cons_self p rest), by decide,
        hv p (List.mem_cons_self p rest)⟩
    cases rest with
    | nil =>
      show pySplit ',' (p.1 ++ ':' :: p.2) = [p.1 ++ ':' :: p.2]
      exact pySplit_no_sep ',' _ hchunk
    | cons q rest' =>
      rw [capsRender_cons_cons, pySplit_append_sep ',' _ _ hchunk,
        ih (by simp) (fun x hx => hk x (List.mem_cons_of_mem p hx))
          (fun x hx => hv x (List.mem_cons_of_mem p hx))]
      rfl

theorem parseCapsLoop_rendered (pairs : List (List Char × List Char))
    (d : List (List Char × List Char)) (hk : ∀ p ∈ pairs, ':' ∉ p.1) :
    parseCapsLoop (pairs.map (fun p => p.1 ++ ':' :: p.2)) d =
      some (pairs.foldl (fun d p => dictInsert d (pyStrip p.1) (pyStrip p.2)) d) := by
  induction pairs generalizing d with
  | nil => rfl
  | cons p rest ih =>
    show parseCapsLoop ((p.1 ++ ':' :: p.2) :: rest.map _) d = _
    unfold parseCapsLoop
    rw [pySplitFirst_append ':' p.1 p.2 (hk p (List.mem_cons_self p rest))]
    exact ih _ (fun x hx => hk x (List.mem_cons_of_mem p hx))

theorem capsRender_ne_nil (p : List Char × List Char)
    (rest : List (List Char × List Char)) : capsRender (p :: rest) ≠ [] := by
  cases rest with
  | nil =>
    show p.1 ++ ':' :: p.2 ≠ []
    simp
  | cons q rest' =>
    rw [capsRender_cons_cons]
    simp

/-! ## `BROWSER_NAMES`, `_get_browser_creation_function`, `_make_browser`
(browsermanagement.py lines 22-37 and 706-721)

`_make_browser` looks the lowercased, space-stripped token up in
`BROWSER_NAMES` and raises `ValueError(browser_name + " is not a supported
browser.")` when nothing is found.  The construction of the actual driver
(an external `selenium.webdriver` call) is collapsed to the name of the
creation method the token resolves to. -/

def BROWSER_NAMES : List (String × String) :=
  [("ff", "_make_ff"),
   ("firefox", "_make_ff"),
   ("ie", "_make_ie"),
   ("internetexplorer", "_make_ie"),
   ("googlechrome", "_make_chrome"),
   ("gc", "_make_chrome"),
   ("chrome", "_make_chrome"),
   ("opera", "_make_opera"),
   ("phantomjs", "_make_phantomjs"),
   ("htmlunit", "_make_htmlunit"),
   ("htmlunitwithjs", "_make_htmlunitwithjs"),
   ("android", "_make_android"),
   ("iphone", "_make_iphone"),
   ("safari", "_make_safari"),
   ("edge", "_make_edge")]

/-- Python `browser_name.lower().replace(' ', '')`. -/
def lowerReplaceSpace (s : String) : String :=
  String.mk ((s.toList.map Char.toLower).filter (fun c => ¬ c = ' '))

/-- `_get_browser_creation_function`: dictionary lookup of the normalised
token; the creation method is represented by its name. -/
def _get_browser_creation_function (browser_name : String) : Option String :=
  dictGet BROWSER_NAMES (lowerReplaceSpace browser_name)

/-- `_make_browser`, restricted to the token-resolution step: `ValueError`
with the raw token in the message when the lookup fails, otherwise the
resolved creation method. -/
def _make_browser (browser_name : String) : Except String String :=
  match _get_browser_creation_function browser_name with
  | none => Except.error (browser_name ++ " is not a supported browser.")
  | some f => Except.ok f

theorem dictGet_eq_none_of_not_mem {α β : Type} [DecidableEq α]
    (d : List (α × β)) (k : α) (h : k ∉ d.map Prod.fst) : dictGet d k = none := by
  unfold dictGet
  have hnone : d.find? (fun p => p.1 = k) = none := by
    rw [List.find?_eq_none]
    intro p hp
    simp only [decide_eq_true_eq]
    exact fun he => h (he ▸ List.mem_map_of_mem Prod.fst hp)
  rw [hnone]
  rfl

/-! ## Session handles and the browser cache -/

/-- A (possibly reconnecting) web-driver handle: `session_id`,
`command_executor._url` and the `pid` attribute set by `restore_webdriver`.
Fields are optional because the Python attributes can hold `None`. -/
structure RDriver where
  session_id : Option (List Char)
  command_executor_url : Option (List Char)
  pid : Option (List Char)
deriving DecidableEq, Repr

/-- Python `"%s" % x` for a `None`-able string. -/
def pyStr : Option (List Char) → String
  | none => "None"
  | some s => String.mk s

/-- Outcomes that `restore_webdriver` can raise. -/
inductive RestoreErr
  | bothNone
  | aliasFileNone
  | fileNotFound
  | staleSession
deriving DecidableEq, Repr

/-- `_ReusableDriver.__init__` together with its overridden `start_session`:
the handle adopts the caller-supplied session id and issues a `GetSessionData`
capability query; when the server has no such session the query raises and
construction fails (`staleSession`).  `serverHasSession` is the oracle for
that external query. -/
def _ReusableDriver_init (command_executor reuse_session_id : Option (List Char))
    (serverHasSession : Bool) : Except RestoreErr RDriver :=
  if serverHasSession then
    Except.ok { session_id := reuse_session_id,
                command_executor_url := command_executor,
                pid := none }
  else
    Except.error RestoreErr.staleSession

/-- Modelled from the spec: `BrowserCache` lives in `Selenium2Library/utils`,
which is not under `src/`.  Spec section 4.1: an ordered mapping from 1-based
integer index to handle, a secondary alias-to-index mapping (duplicate alias:
last registration wins in lookup), and a current pointer. -/
structure BCache where
  connections : List (Nat × RDriver)
  aliases : List (String × Nat)
  nextIndex : Nat
  current : Option Nat
deriving DecidableEq, Repr

def BCache.empty : BCache :=
  { connections := [], aliases := [], nextIndex := 1, current := none }

/-- Modelled from the spec: `register(handle, alias=None) -> index` appends the
handle under the next integer index (monotonic, starts at 1), binds the alias
if given, and makes this handle current. -/
def BCache.register (c : BCache) (d : RDriver) (al : Option String) : Nat × BCache :=
  (c.nextIndex,
   { connections := c.connections ++ [(c.nextIndex, d)]
     aliases := match al with
                | some a => c.aliases ++ [(a, c.nextIndex)]
                | none => c.aliases
     nextIndex := c.nextIndex + 1
     current := some c.nextIndex })

def BCache.lookupConn (c : BCache) (i : Nat) : Option RDriver :=
  dictGet c.connections i

/-- The index or alias argument of `switch_browser` (Robot may pass either). -/
inductive IndexOrAlias
  | idx (n : Nat)
  | al (a : String)
deriving DecidableEq, Repr

/-- Modelled from the spec: `switch(indexOrAlias)` resolves by alias first
(last binding of a duplicate alias wins), else by integer index; the resolved
index must refer to a live connection. -/
def BCache.resolve (c : BCache) : IndexOrAlias → Option Nat
  | IndexOrAlias.al a =>
    match dictGet c.aliases.reverse a with
    | some i => if (c.lookupConn i).isSome then some i else none
    | none => none
  | IndexOrAlias.idx n => if (c.lookupConn n).isSome then some n else none

/-- Modelled from the spec: `switch` sets current to the resolved handle and
fails (leaving the cache untouched) when nothing resolves. -/
def BCache.switch (c : BCache) (x : IndexOrAlias) : Option BCache :=
  (c.resolve x).map (fun i => { c with current := some i })

def renderIA : IndexOrAlias → String
  | IndexOrAlias.idx n => toString n
  | IndexOrAlias.al a => a

/-- `switch_browser` (browsermanagement.py lines 355-386): delegates to
`self._cache.switch` and converts its `RuntimeError`/`DataError` into
`RuntimeError("No browser with index or alias '%s' found." % index_or_alias)`.
Returns the possibly-updated cache alongside the outcome. -/
def switch_browser (c : BCache) (index_or_alias : IndexOrAlias) :
    Except String Unit × BCache :=
  match BCache.switch c index_or_alias with
  | some c' => (Except.ok (), c')
  | none =>
    (Except.error ("No browser with index or alias '" ++ renderIA index_or_alias
        ++ "' found."), c)

/-- `open_browser` after `_make_browser` succeeded (browsermanagement.py lines
154-164): `browser.get(url)` inside `try`; on any exception the handle is
registered and the exception re-raised; on success the handle is registered
and its index returned.  `navOk` is the oracle for the external `get` call. -/
def open_browser (c : BCache) (browser : RDriver) (al : Option String)
    (navOk : Bool) : Option Nat × BCache :=
  if navOk then
    let r := c.register browser al
    (some r.1, r.2)
  else
    let r := c.register browser al
    (none, r.2)

/-! ## `_ReusableDriver.stop_client` (browsermanagement.py lines 49-57) -/

inductive LogEvent
  | info (msg : String)
  | warn (msg : String)
deriving DecidableEq, Repr

def digitsToNat (ds : List Char) : Nat :=
  ds.foldl (fun n c => 10 * n + (c.toNat - Char.toNat '0')) 0

/-- Python `int(s)` on a string: optional surrounding whitespace, optional
sign, one or more digits; `none` models the `ValueError`. -/
def pyInt (s : List Char) : Option Int :=
  match pyStrip s with
  | [] => none
  | c :: ds =>
    if c = '-' then
      if ds ≠ [] ∧ ds.all Char.isDigit then some (-(digitsToNat ds : Int)) else none
    else if c = '+' then
      if ds ≠ [] ∧ ds.all Char.isDigit then some ((digitsToNat ds : Int)) else none
    else
      if (c :: ds).all Char.isDigit then some ((digitsToNat (c :: ds) : Int)) else none

/-- `stop_client`: when a non-empty `pid` is recorded, log and send `SIGTERM`
to `int(pid)`, demoting a dead process (`EnvironmentError`) to a warning;
otherwise just log.  `processAlive` is the oracle for `os.kill`.  The result
carries the log events and the process id a signal was attempted on; an
`Except.error` models an uncaught exception escaping to the caller. -/
def stop_client (d : RDriver) (processAlive : Bool) :
    Except String (List LogEvent × Option Int) :=
  match d.pid with
  | some p =>
    if p = [] then
      Except.ok ([LogEvent.info ("No driver process found for session '"
        ++ pyStr d.session_id ++ "'")], none)
    else
      let head := LogEvent.info ("Stopping driver for session '"
        ++ pyStr d.session_id ++ "' with PID: " ++ String.mk p)
      match pyInt p with
      | none => Except.error "ValueError"
      | some n =>
        if processAlive then
          Except.ok ([head], some n)
        else
          Except.ok ([head, LogEvent.warn ("Failed to stop the driver with PID '"
            ++ String.mk p ++ "' - please kill the process manually ")], some n)
  | none =>
    Except.ok ([LogEvent.info ("No driver process found for session '"
      ++ pyStr d.session_id ++ "'")], none)

/-! ## `save_webdriver` (browsermanagement.py lines 220-290) -/

inductive SaveOut
  | triple (sid curl : List Char) (pid : Option (List Char))
  | fileName (f : String)
deriving DecidableEq, Repr

/-- The optional process id line of the serialized session record. -/
def pidPart : Option (List Char) → List Char
  | some p => p ++ ['\n']
  | none => []

/-- The serialized session record: one value per line, process id line only
when a process id is known. -/
def sessionFileContent (sid curl : List Char) (pid : Option (List Char)) :
    List Char :=
  sid ++ '\n' :: curl ++ '\n' :: pidPart pid

/-- `save_webdriver`: `sid`, `curl` and `pid` are the current browser's
`session_id`, `command_executor._url` and resolved driver process id (the
Python probing of the `pid` attribute and of the `service`/`iedriver` service
objects, which queries external driver state, is collapsed into the `pid`
argument; `pid = none` is the "could not find driver process" case).
`file = none` returns the `(sid, curl, pid)` triple without touching the
filesystem; `file = some ""` derives `session_<alias>.tmp` via the inverted
alias dictionary of the cache, else `session_<index>.tmp`; any other name is
used as given. -/
def save_webdriver (sid curl : List Char) (pid : Option (List Char))
    (aliases : List (String × Nat)) (current_index : Nat)
    (file : Option String) (fs : FS) : SaveOut × FS :=
  match file with
  | none => (SaveOut.triple sid curl pid, fs)
  | some f0 =>
    let f :=
      if f0 = "" then
        let inv_dict := aliases.foldl (fun d p => dictInsert d p.2 p.1) []
        match dictGet inv_dict current_index with
        | some a => "session_" ++ a ++ ".tmp"
        | none => "session_" ++ toString current_index ++ ".tmp"
      else f0
    (SaveOut.fileName f, fsWrite fs f (sessionFileContent sid curl pid))

/-! ## `restore_webdriver` (browsermanagement.py lines 292-353) -/

/-- The ordered file operations `restore_webdriver` performs. -/
inductive FileOp
  | read (name : String)
  | remove (name : String)
deriving DecidableEq, Repr

deriving instance DecidableEq for Except

structure RestoreOut where
  result : Except RestoreErr (Nat × RDriver)
  cache : BCache
  fs : FS
  ops : List FileOp
deriving DecidableEq, Repr

/-- The file branch of `restore_webdriver` (browsermanagement.py lines
339-353): `open(file, 'r+')`, three `readline()` calls with `\n`/`\r`
stripping (no line-count validation), then `_ReusableDriver` construction
inside `try/finally` whose `finally` unconditionally (in this branch)
applies the `delete_file` deletion; on success the handle is registered. -/
def restoreFromFile (serverHasSession : Bool) (c : BCache) (fs : FS)
    (al : Option String) (f : String) (delete_file : Bool) : RestoreOut :=
  match fsRead fs f with
  | none =>
    { result := Except.error RestoreErr.fileNotFound, cache := c, fs := fs,
      ops := [FileOp.read f] }
  | some content =>
    let r1 := readline content
    let r2 := readline r1.2
    let r3 := readline r2.2
    let saved_sid := removeNLCR r1.1
    let saved_curl := removeNLCR r2.1
    let spid := removeNLCR r3.1
    let fs' := if delete_file then fsRemove fs f else fs
    let ops := FileOp.read f :: (if delete_file then [FileOp.remove f] else [])
    match _ReusableDriver_init (some saved_curl) (some saved_sid) serverHasSession with
    | Except.error e =>
      { result := Except.error e, cache := c, fs := fs', ops := ops }
    | Except.ok d0 =>
      let d := { d0 with pid := some spid }
      let r := c.register d al
      { result := Except.ok (r.1, d), cache := r.2, fs := fs', ops := ops }

/-- `restore_webdriver`: explicit `session_id`/`session_url` pair (with the
dead inner `both ... cannot be None` guard kept as `RestoreErr.bothNone`), or
a session file named explicitly or derived from the alias; three `readline()`
calls with `\n`/`\r` stripping; `_ReusableDriver` construction inside
`try/finally` whose `finally` deletes the file when `delete_file` is set and
no explicit pair was given; the new handle is registered in the cache.
`serverHasSession` is the oracle for the reconnection handshake. -/
def restore_webdriver (serverHasSession : Bool) (c : BCache) (fs : FS)
    (al : Option String) (file : Option String)
    (session_id session_url session_pid : Option (List Char))
    (delete_file : Bool) : RestoreOut :=
  if session_id.isSome ∨ session_url.isSome then
    if session_id = none ∧ session_url = none then
      { result := Except.error RestoreErr.bothNone, cache := c, fs := fs, ops := [] }
    else
      match _ReusableDriver_init session_url session_id serverHasSession with
      | Except.error e =>
        { result := Except.error e, cache := c, fs := fs, ops := [] }
      | Except.ok d0 =>
        let d := { d0 with pid := session_pid }
        let r := c.register d al
        { result := Except.ok (r.1, d), cache := r.2, fs := fs, ops := [] }
  else
    let fOpt : Option String :=
      match file with
      | none =>
        match al with
        | none => none
        | some a => some ("session_" ++ a ++ ".tmp")
      | some f => some f
    match fOpt with
    | none =>
      { result := Except.error RestoreErr.aliasFileNone, cache := c, fs := fs, ops := [] }
    | some f => restoreFromFile serverHasSession c fs al f delete_file

theorem BCache.lookupConn_register (c : BCache) (d : RDriver) (al : Option String)
    (hwf : ∀ p ∈ c.connections, p.1 < c.nextIndex) :
    ((c.register d al).2).lookupConn c.nextIndex = some d := by
  unfold BCache.register BCache.lookupConn dictGet
  have hnone : c.connections.find? (fun p => p.1 = c.nextIndex) = none := by
    rw [List.find?_eq_none]
    intro p hp
    simp only [decide_eq_true_eq]
    exact fun he => absurd (he ▸ hwf p hp) (lt_irrefl _)
  simp only
  rw [List.find?_append, hnone]
  simp [List.find?]

/-! ## Claim theorems -/

/-- C4: for every capabilities string of comma-separated `key:value` pairs,
`_parse_capabilities_string` splits on commas, splits each pair only on the
first colon, trims surrounding whitespace from keys and values, and preserves
colons inside values: parsing the rendered string of any pair list (keys free
of `,` and `:`, values free of `,` but with `:` allowed) yields exactly the
Python-dict accumulation of the trimmed pairs. -/
theorem _parse_capabilities_string_spec (pairs : List (List Char × List Char))
    (hk : ∀ p ∈ pairs, ',' ∉ p.1 ∧ ':' ∉ p.1)
    (hv : ∀ p ∈ pairs, ',' ∉ p.2) :
    _parse_capabilities_string (capsRender pairs) = some (capsDict pairs) := by
  cases pairs with
  | nil => rfl
  | cons p rest =>
    unfold _parse_capabilities_string
    rw [if_neg (by simpa [List.isEmpty_iff] using capsRender_ne_nil p rest)]
    rw [pySplit_capsRender _ (by simp) (fun x hx => (hk x hx).1) hv]
    exact parseCapsLoop_rendered _ _ (fun x hx => (hk x hx).2)

/-- Witness for C4: the complex example from the spec, with a colon preserved
inside the `httpProxy` value. -/
theorem _parse_capabilities_string_spec_witness :
    _parse_capabilities_string ("proxyType:manual,httpProxy:IP:port".toList) =
      some [("proxyType".toList, "manual".toList), ("httpProxy".toList, "IP:port".toList)] := by
  have h := _parse_capabilities_string_spec
    [("proxyType".toList, "manual".toList), ("httpProxy".toList, "IP:port".toList)]
    (by decide) (by decide)
  have e1 : capsRender [("proxyType".toList, "manual".toList),
      ("httpProxy".toList, "IP:port".toList)] =
      "proxyType:manual,httpProxy:IP:port".toList := by decide
  have e2 : capsDict [("proxyType".toList, "manual".toList),
      ("httpProxy".toList, "IP:port".toList)] =
      [("proxyType".toList, "manual".toList), ("httpProxy".toList, "IP:port".toList)] := by
    decide
  rw [e1, e2] at h
  exact h

/-- C6: a browser token whose lowercased, space-stripped form is not among the
supported names makes `_make_browser` fail with a `ValueError` naming exactly
the offending token; and resolution depends only on that normalised form, so
matching is case-insensitive and space-insensitive for supported tokens. -/
theorem make_browser_spec (s : String) :
    (lowerReplaceSpace s ∉ BROWSER_NAMES.map Prod.fst →
      _make_browser s = Except.error (s ++ " is not a supported browser.")) ∧
    (∀ t f, lowerReplaceSpace s = lowerReplaceSpace t →
      _make_browser s = Except.ok f → _make_browser t = Except.ok f) := by
  constructor
  · intro h
    unfold _make_browser _get_browser_creation_function
    rw [dictGet_eq_none_of_not_mem _ _ h]
  · intro t f he hok
    unfold _make_browser _get_browser_creation_function at hok ⊢
    rw [← he]
    cases hd : dictGet BROWSER_NAMES (lowerReplaceSpace s) with
    | none => rw [hd] at hok; simp at hok
    | some g => rw [hd] at hok; exact hok

/-- Witness for C6: the `fireox` token from the unit test, and the
case/space-insensitive match of `internet explorer`. -/
theorem make_browser_spec_witness :
    _make_browser "fireox" = Except.error "fireox is not a supported browser." ∧
    _make_browser "internet explorer" = Except.ok "_make_ie" := by
  constructor
  · exact (make_browser_spec "fireox").1 (by decide)
  · exact (make_browser_spec "InternetExplorer").2 "internet explorer" "_make_ie"
      (by decide) (by decide)

/-- C7: when the given index or alias resolves to no registered browser,
`switch_browser` fails with the not-found error naming that index or alias,
and the cache (in particular its current selection) is unchanged. -/
theorem switch_browser_not_found_spec (c : BCache) (x : IndexOrAlias)
    (h : c.resolve x = none) :
    (switch_browser c x).1 = Except.error ("No browser with index or alias '"
      ++ renderIA x ++ "' found.") ∧
    (switch_browser c x).2 = c ∧
    ((switch_browser c x).2).current = c.current := by
  unfold switch_browser BCache.switch
  rw [h]
  exact ⟨rfl, rfl, rfl⟩

/-- Witness for C7: switching to the unknown alias `foo` on an empty cache. -/
theorem switch_browser_not_found_spec_witness :
    (switch_browser BCache.empty (IndexOrAlias.al "foo")).1 =
      Except.error "No browser with index or alias 'foo' found." ∧
    ((switch_browser BCache.empty (IndexOrAlias.al "foo")).2).current = none := by
  have h := switch_browser_not_found_spec BCache.empty (IndexOrAlias.al "foo") (by decide)
  exact ⟨h.1, h.2.2⟩

/-- C9: when the browser was created but the initial `browser.get(url)`
navigation raises, `open_browser` registers the handle in the cache (so it can
be closed later) before the exception propagates: the exceptional outcome is
returned with a cache that looks the handle up under the fresh index. -/
theorem open_browser_registers_on_nav_failure (c : BCache) (b : RDriver)
    (al : Option String) (hwf : ∀ p ∈ c.connections, p.1 < c.nextIndex) :
    (open_browser c b al false).1 = none ∧
    ((open_browser c b al false).2).lookupConn c.nextIndex = some b := by
  refine ⟨rfl, ?_⟩
  exact BCache.lookupConn_register c b al hwf

/-- Witness for C9: navigation failure directly after opening the first
browser on an empty cache. -/
theorem open_browser_registers_on_nav_failure_witness :
    (open_browser BCache.empty
        { session_id := some ("sid1".toList),
          command_executor_url := some ("http://u".toList), pid := none }
        none false).1 = none ∧
    ((open_browser BCache.empty
        { session_id := some ("sid1".toList),
          command_executor_url := some ("http://u".toList), pid := none }
        none false).2).lookupConn 1 = some
      { session_id := some ("sid1".toList),
        command_executor_url := some ("http://u".toList), pid := none } :=
  open_browser_registers_on_nav_failure BCache.empty
    { session_id := some ("sid1".toList),
      command_executor_url := some ("http://u".toList), pid := none }
    none (by simp [BCache.empty])

/-- The inverse alias dictionary `{v: k for k, v in aliases.items()}` looked
up at an index yields the alias of the last binding for that index (Python
dict comprehension: later items overwrite earlier ones). -/
theorem dictGet_invDict (aliases : List (String × Nat)) (idx : Nat) :
    dictGet (aliases.foldl (fun d p => dictInsert d p.2 p.1) []) idx =
      ((aliases.filter (fun p => p.2 = idx)).getLast?).map Prod.fst := by
  induction aliases using List.reverseRecOn with
  | nil => rfl
  | append_singleton l p ih =>
    rw [List.foldl_append]
    simp only [List.foldl_cons, List.foldl_nil]
    rw [dictGet_dictInsert, List.filter_append]
    by_cases hp : p.2 = idx
    · rw [if_pos hp.symm]
      have hone : List.filter (fun p => p.2 = idx) [p] = [p] := by simp [hp]
      rw [hone, List.getLast?_concat]
      rfl
    · rw [if_neg (fun h => hp h.symm)]
      have hzero : List.filter (fun p => p.2 = idx) [p] = [] := by simp [hp]
      rw [hzero, List.append_nil]
      exact ih

/-- C2: `save_webdriver` with `file = None` returns the
`(sessionId, serverUrl, processId)` triple and leaves the filesystem
untouched; with `file = ""` it writes to `session_<alias>.tmp` when the
current index has an alias (the last one bound to it), else
`session_<index>.tmp`, returning that name; the written record is one value
per line in the order session id, server url, process id, the process id
line being omitted when the process id is unknown. -/
theorem save_webdriver_spec (sid curl : List Char) (pid : Option (List Char))
    (aliases : List (String × Nat)) (idx : Nat) (fs : FS) :
    (save_webdriver sid curl pid aliases idx none fs = (SaveOut.triple sid curl pid, fs)) ∧
    (∀ a, ((aliases.filter (fun p => p.2 = idx)).getLast?).map Prod.fst = some a →
      save_webdriver sid curl pid aliases idx (some "") fs =
        (SaveOut.fileName ("session_" ++ a ++ ".tmp"),
         fsWrite fs ("session_" ++ a ++ ".tmp") (sessionFileContent sid curl pid))) ∧
    ((aliases.filter (fun p => p.2 = idx)).getLast? = none →
      save_webdriver sid curl pid aliases idx (some "") fs =
        (SaveOut.fileName ("session_" ++ toString idx ++ ".tmp"),
         fsWrite fs ("session_" ++ toString idx ++ ".tmp") (sessionFileContent sid curl pid))) ∧
    (sessionFileContent sid curl none = sid ++ '\n' :: curl ++ ['\n']) ∧
    (∀ p, sessionFileContent sid curl (some p) = sid ++ '\n' :: curl ++ '\n' :: p ++ ['\n']) := by
  refine ⟨rfl, ?_, ?_, rfl, ?_⟩
  · intro a ha
    have hd : dictGet (aliases.foldl (fun d p => dictInsert d p.2 p.1) []) idx = some a := by
      rw [dictGet_invDict]; exact ha
    simp only [save_webdriver, hd]
    simp
  · intro ha
    have hd : dictGet (aliases.foldl (fun d p => dictInsert d p.2 p.1) []) idx = none := by
      rw [dictGet_invDict, ha]; rfl
    simp only [save_webdriver, hd]
    simp
  · intro p
    simp [sessionFileContent, pidPart]

/-- Witness for C2: a handle with alias `foo` bound to index 1 and a known
process id 42. -/
theorem save_webdriver_spec_witness :
    save_webdriver ("sid1".toList) ("http://u".toList) none [] 1 none [] =
      (SaveOut.triple ("sid1".toList) ("http://u".toList) none, []) ∧
    save_webdriver ("sid1".toList) ("http://u".toList) (some ("42".toList))
        [("foo", 1)] 1 (some "") [] =
      (SaveOut.fileName "session_foo.tmp",
       fsWrite [] "session_foo.tmp"
         (sessionFileContent ("sid1".toList) ("http://u".toList) (some ("42".toList)))) ∧
    save_webdriver ("sid1".toList) ("http://u".toList) (some ("42".toList))
        [] 1 (some "") [] =
      (SaveOut.fileName "session_1.tmp",
       fsWrite [] "session_1.tmp"
         (sessionFileContent ("sid1".toList) ("http://u".toList) (some ("42".toList)))) := by
  refine ⟨?_, ?_, ?_⟩
  · exact (save_webdriver_spec ("sid1".toList) ("http://u".toList) none [] 1 []).1
  · exact (save_webdriver_spec ("sid1".toList) ("http://u".toList) (some ("42".toList))
      [("foo", 1)] 1 []).2.1 "foo" (by decide)
  · exact (save_webdriver_spec ("sid1".toList) ("http://u".toList) (some ("42".toList))
      [] 1 []).2.2.1 (by decide)

/-- C8: `stop_client` with a recorded (non-empty, numeric) pid attempts a
`SIGTERM` on exactly that process id; when the process is already gone the
failure is demoted to a warning and the call still returns normally; with no
recorded pid (or the empty string read from a two-line session file) it only
logs and signals nothing.  `Except.error` — an exception escaping to the
caller — never occurs in these cases. -/
theorem stop_client_spec (d : RDriver) (alive : Bool) :
    (∀ p n, d.pid = some p → p ≠ [] → pyInt p = some n →
      (alive = true →
        stop_client d alive = Except.ok
          ([LogEvent.info ("Stopping driver for session '" ++ pyStr d.session_id
              ++ "' with PID: " ++ String.mk p)], some n)) ∧
      (alive = false →
        stop_client d alive = Except.ok
          ([LogEvent.info ("Stopping driver for session '" ++ pyStr d.session_id
              ++ "' with PID: " ++ String.mk p),
            LogEvent.warn ("Failed to stop the driver with PID '" ++ String.mk p
              ++ "' - please kill the process manually ")], some n))) ∧
    (d.pid = none → stop_client d alive = Except.ok
      ([LogEvent.info ("No driver process found for session '"
          ++ pyStr d.session_id ++ "'")], none)) ∧
    (d.pid = some [] → stop_client d alive = Except.ok
      ([LogEvent.info ("No driver process found for session '"
          ++ pyStr d.session_id ++ "'")], none)) := by
  refine ⟨?_, ?_, ?_⟩
  · intro p n hp hpne hn
    constructor
    · intro ha
      subst ha
      unfold stop_client
      rw [hp]
      simp only [if_neg hpne, hn]
      simp
    · intro ha
      subst ha
      unfold stop_client
      rw [hp]
      simp only [if_neg hpne, hn]
      simp
  · intro hp
    unfold stop_client
    rw [hp]
  · intro hp
    unfold stop_client
    rw [hp]
    simp

/-- Witness for C8: a restored handle with pid `42` whose process is already
gone — warning logged, signal targeted at 42, normal return. -/
theorem stop_client_spec_witness :
    stop_client { session_id := some ("sid".toList), command_executor_url := none,
                  pid := some ("42".toList) } false =
      Except.ok ([LogEvent.info "Stopping driver for session 'sid' with PID: 42",
                  LogEvent.warn "Failed to stop the driver with PID '42' - please kill the process manually "],
                 some 42) := by
  have h := ((stop_client_spec
      { session_id := some ("sid".toList), command_executor_url := none,
        pid := some ("42".toList) } false).1 ("42".toList) 42 rfl (by decide)
      (by decide)).2 rfl
  exact h

/-- When at least one of `session_id`/`session_url` is given,
`restore_webdriver` takes the explicit branch: it builds the reconnecting
driver from exactly the given values (missing one as `None`) and performs no
file operation. -/
theorem restore_webdriver_explicit (shs : Bool) (c : BCache) (fs : FS)
    (al : Option String) (file : Option String)
    (sid surl spid : Option (List Char)) (df : Bool)
    (h : sid.isSome ∨ surl.isSome) :
    restore_webdriver shs c fs al file sid surl spid df =
      (if shs then
        { result := Except.ok (c.nextIndex,
            { session_id := sid, command_executor_url := surl, pid := spid }),
          cache := (c.register
            { session_id := sid, command_executor_url := surl, pid := spid } al).2,
          fs := fs, ops := [] }
      else
        { result := Except.error RestoreErr.staleSession, cache := c, fs := fs,
          ops := [] }) := by
  have hne : ¬(sid = none ∧ surl = none) := by
    rcases h with h | h
    · exact fun hc => by rw [hc.1] at h; simp at h
    · exact fun hc => by rw [hc.2] at h; simp at h
  unfold restore_webdriver
  rw [if_pos h, if_neg hne]
  cases shs with
  | true => rfl
  | false => rfl

/-- The file branch yields only a file-not-found failure, a stale-session
failure, or a successfully registered handle. -/
theorem restoreFromFile_result_cases (shs : Bool) (c : BCache) (fs : FS)
    (al : Option String) (f : String) (df : Bool) :
    (restoreFromFile shs c fs al f df).result = Except.error RestoreErr.fileNotFound ∨
    (restoreFromFile shs c fs al f df).result = Except.error RestoreErr.staleSession ∨
    ∃ x, (restoreFromFile shs c fs al f df).result = Except.ok x := by
  unfold restoreFromFile
  cases fsRead fs f with
  | none => left; rfl
  | some content =>
    cases shs with
    | false => right; left; rfl
    | true => right; right; exact ⟨_, rfl⟩

/-- When the session file exists and `delete_file` is set, the file branch
removes the file whatever the reconnection outcome is. -/
theorem restoreFromFile_deletes (shs : Bool) (c : BCache) (fs : FS)
    (al : Option String) (f : String) (h : (fsRead fs f).isSome) :
    (restoreFromFile shs c fs al f true).fs = fsRemove fs f ∧
    FileOp.remove f ∈ (restoreFromFile shs c fs al f true).ops := by
  unfold restoreFromFile
  cases hr : fsRead fs f with
  | none => rw [hr] at h; simp at h
  | some content =>
    cases shs with
    | false => exact ⟨rfl, by simp [_ReusableDriver_init]⟩
    | true => exact ⟨rfl, by simp [_ReusableDriver_init]⟩

/-- C10: the inner guard of `restore_webdriver` raising
`"both session_id and session_url cannot be None."` is unreachable — no call
whatsoever produces that error — and when exactly one of
`session_id`/`session_url` is given, no configuration error is raised: the
restore proceeds through the explicit branch using `None` for the missing
value. -/
theorem restore_webdriver_guard_unreachable (shs : Bool) (c : BCache) (fs : FS)
    (al : Option String) (file : Option String)
    (sid surl spid : Option (List Char)) (df : Bool) :
    ((restore_webdriver shs c fs al file sid surl spid df).result ≠
       Except.error RestoreErr.bothNone) ∧
    (∀ s, sid = some s → surl = none →
      restore_webdriver shs c fs al file sid surl spid df =
        (if shs then
          { result := Except.ok (c.nextIndex,
              { session_id := some s, command_executor_url := none, pid := spid }),
            cache := (c.register { session_id := some s, command_executor_url := none,
                                   pid := spid } al).2,
            fs := fs, ops := [] }
        else
          { result := Except.error RestoreErr.staleSession, cache := c, fs := fs,
            ops := [] })) ∧
    (∀ u, sid = none → surl = some u →
      restore_webdriver shs c fs al file sid surl spid df =
        (if shs then
          { result := Except.ok (c.nextIndex,
              { session_id := none, command_executor_url := some u, pid := spid }),
            cache := (c.register { session_id := none, command_executor_url := some u,
                                   pid := spid } al).2,
            fs := fs, ops := [] }
        else
          { result := Except.error RestoreErr.staleSession, cache := c, fs := fs,
            ops := [] })) := by
  refine ⟨?_, ?_, ?_⟩
  · by_cases h : sid.isSome ∨ surl.isSome
    · rw [restore_webdriver_explicit shs c fs al file sid surl spid df h]
      cases shs <;> simp
    · have hsid : sid = none := by
        cases sid with
        | none => rfl
        | some s => exact absurd (Or.inl rfl) h
      have hsurl : surl = none := by
        cases surl with
        | none => rfl
        | some u => exact absurd (Or.inr rfl) h
      subst hsid; subst hsurl
      unfold restore_webdriver
      rw [if_neg h]
      cases file with
      | some f =>
        show (restoreFromFile shs c fs al f df).result ≠ Except.error RestoreErr.bothNone
        rcases restoreFromFile_result_cases shs c fs al f df with hc | hc | ⟨x, hc⟩ <;>
          simp [hc]
      | none =>
        cases al with
        | none =>
          show Except.error RestoreErr.aliasFileNone ≠ Except.error RestoreErr.bothNone
          simp
        | some a =>
          show (restoreFromFile shs c fs (some a) ("session_" ++ a ++ ".tmp") df).result ≠
            Except.error RestoreErr.bothNone
          rcases restoreFromFile_result_cases shs c fs (some a)
            ("session_" ++ a ++ ".tmp") df with hc | hc | ⟨x, hc⟩ <;> simp [hc]
  · intro s hs hu
    subst hs; subst hu
    exact restore_webdriver_explicit shs c fs al file (some s) none spid df (Or.inl rfl)
  · intro u hs hu
    subst hs; subst hu
    exact restore_webdriver_explicit shs c fs al file none (some u) spid df (Or.inr rfl)

/-- Witness for C10: restoring with only a session id, and with only a
session url; neither raises the configuration error, each proceeds with
`None` for the missing value. -/
theorem restore_webdriver_guard_unreachable_witness :
    (restore_webdriver true BCache.empty [] none none (some ("x".toList)) none none
        true).result =
      Except.ok (1, { session_id := some ("x".toList), command_executor_url := none,
                      pid := none }) ∧
    (restore_webdriver true BCache.empty [] none none none (some ("http://u".toList))
        none true).result =
      Except.ok (1, { session_id := none,
                      command_executor_url := some ("http://u".toList), pid := none }) := by
  constructor
  · have h := (restore_webdriver_guard_unreachable true BCache.empty [] none none
      (some ("x".toList)) none none true).2.1 ("x".toList) rfl rfl
    rw [h]
    rfl
  · have h := (restore_webdriver_guard_unreachable true BCache.empty [] none none
      none (some ("http://u".toList)) none true).2.2 ("http://u".toList) rfl rfl
    rw [h]
    rfl

/-- C3: when restoring from an existing file with `delete_file` true, the
`finally` clause removes the file on every exit path — for both outcomes of
the reconnection handshake, i.e. also when `_ReusableDriver` construction
raises — and when an explicit `session_id`/`session_url` pair is given, no
file is ever read, written or deleted: the operation log is empty and the
filesystem is unchanged. -/
theorem restore_webdriver_file_effects (shs : Bool) (c : BCache) (fs : FS)
    (al : Option String) (f : String) (file : Option String)
    (sid surl spid : Option (List Char)) (df : Bool) :
    ((fsRead fs f).isSome →
      (restore_webdriver shs c fs al (some f) none none spid true).fs = fsRemove fs f ∧
      FileOp.remove f ∈ (restore_webdriver shs c fs al (some f) none none spid true).ops) ∧
    (sid.isSome ∨ surl.isSome →
      (restore_webdriver shs c fs al file sid surl spid df).ops = [] ∧
      (restore_webdriver shs c fs al file sid surl spid df).fs = fs) := by
  constructor
  · intro h
    exact restoreFromFile_deletes shs c fs al f h
  · intro h
    rw [restore_webdriver_explicit shs c fs al file sid surl spid df h]
    cases shs with
    | true => exact ⟨rfl, rfl⟩
    | false => exact ⟨rfl, rfl⟩

/-- Witness for C3: a two-line session file; deletion happens even with a
failing handshake (`serverHasSession = false`), and an explicit-pair restore
leaves the filesystem alone. -/
theorem restore_webdriver_file_effects_witness :
    ((restore_webdriver false BCache.empty [("f.tmp", ("sid1\nhttp://u\n").toList)] none
        (some "f.tmp") none none none true).fs =
      fsRemove [("f.tmp", ("sid1\nhttp://u\n").toList)] "f.tmp" ∧
     FileOp.remove "f.tmp" ∈ (restore_webdriver false BCache.empty
        [("f.tmp", ("sid1\nhttp://u\n").toList)] none (some "f.tmp") none none none
        true).ops) ∧
    ((restore_webdriver true BCache.empty [("f.tmp", ("sid1\nhttp://u\n").toList)] none
        (some "f.tmp") (some ("x".toList)) none none true).ops = [] ∧
     (restore_webdriver true BCache.empty [("f.tmp", ("sid1\nhttp://u\n").toList)] none
        (some "f.tmp") (some ("x".toList)) none none true).fs =
      [("f.tmp", ("sid1\nhttp://u\n").toList)]) := by
  constructor
  · exact (restore_webdriver_file_effects false BCache.empty
      [("f.tmp", ("sid1\nhttp://u\n").toList)] none "f.tmp" (some "f.tmp")
      none none none true).1 (by decide)
  · exact (restore_webdriver_file_effects true BCache.empty
      [("f.tmp", ("sid1\nhttp://u\n").toList)] none "f.tmp" (some "f.tmp")
      (some ("x".toList)) none none true).2 (Or.inl rfl)

theorem readline_nil : readline [] = ([], []) := rfl

theorem removeNLCR_nil : removeNLCR [] = [] := rfl

theorem readline_no_newline (s : List Char) (h : '\n' ∉ s) : readline s = (s, []) := by
  induction s with
  | nil => rfl
  | cons c cs ih =>
    simp only [List.mem_cons, not_or] at h
    rw [readline_cons, if_neg (fun hc => h.1 hc.symm), ih h.2]

theorem removeNLCR_append_nl (s : List Char) :
    removeNLCR (s ++ ['\n']) = removeNLCR s := by
  unfold removeNLCR
  rw [List.filter_append]
  simp

/-- Counterexample for C5: a session file with a single line (fewer than the
expected two-or-three).  `restore_webdriver` does not fail with any parsing
failure: it succeeds, silently using the empty string for the missing server
url (and for the process id). -/
theorem restore_webdriver_malformed_file_counterexample :
    (restore_webdriver true BCache.empty [("f.tmp", ("onlyline\n").toList)] none
        (some "f.tmp") none none none false).result =
      Except.ok (1, { session_id := some ("onlyline".toList),
                      command_executor_url := some [], pid := some [] }) := by
  decide

/-- C5 (amended): `restore_webdriver` performs no line-count validation.
Whatever the line count of an existing session file — zero, one, or more than
three — no parsing failure is raised: with the server still holding the
session the restore succeeds for arbitrary contents; an empty file and a
single line (newline-terminated or not) yield the empty string for the
missing server url and process id (`readline` at end of file returns `""`);
and everything beyond the third line is ignored, the reconnection being
determined by the first three lines alone. -/
theorem restore_webdriver_malformed_file_spec (c : BCache) (fs : FS)
    (al : Option String) (f : String) (df : Bool) :
    (∀ content, fsRead fs f = some content →
      ∃ x, (restore_webdriver true c fs al (some f) none none none df).result =
        Except.ok x) ∧
    (fsRead fs f = some [] →
      (restore_webdriver true c fs al (some f) none none none df).result =
        Except.ok (c.nextIndex, RDriver.mk (some []) (some []) (some []))) ∧
    (∀ s, '\n' ∉ s → '\r' ∉ s →
      (fsRead fs f = some s ∨ fsRead fs f = some (s ++ ['\n'])) →
      (restore_webdriver true c fs al (some f) none none none df).result =
        Except.ok (c.nextIndex, RDriver.mk (some s) (some []) (some []))) ∧
    (∀ l1 l2 l3 rest,
      fsRead fs f = some (l1 ++ '\n' :: (l2 ++ '\n' :: (l3 ++ '\n' :: rest))) →
      '\n' ∉ l1 → '\n' ∉ l2 → '\n' ∉ l3 →
      (restore_webdriver true c fs al (some f) none none none df).result =
        Except.ok (c.nextIndex, RDriver.mk (some (removeNLCR l1))
          (some (removeNLCR l2)) (some (removeNLCR l3)))) := by
  refine ⟨?_, ?_, ?_, ?_⟩
  · intro content hread
    show ∃ x, (restoreFromFile true c fs al f df).result = Except.ok x
    unfold restoreFromFile
    rw [hread]
    exact ⟨_, rfl⟩
  · intro hread
    show (restoreFromFile true c fs al f df).result = _
    unfold restoreFromFile
    rw [hread]
    rfl
  · intro s hnl hcr hdisj
    show (restoreFromFile true c fs al f df).result = _
    rcases hdisj with hread | hread
    · have e1 : readline s = (s, []) := readline_no_newline s hnl
      have e2 : removeNLCR s = s := removeNLCR_of_clean s ⟨hnl, hcr⟩
      simp only [restoreFromFile, hread, e1, e2, readline_nil, removeNLCR_nil,
        _ReusableDriver_init, if_true]
      rfl
    · have e1 : readline (s ++ ['\n']) = (s ++ ['\n'], []) := readline_append s [] hnl
      have e2 : removeNLCR (s ++ ['\n']) = s := removeNLCR_line s ⟨hnl, hcr⟩
      simp only [restoreFromFile, hread, e1, e2, readline_nil, removeNLCR_nil,
        _ReusableDriver_init, if_true]
      rfl
  · intro l1 l2 l3 rest hread h1 h2 h3
    have e1 : readline (l1 ++ '\n' :: (l2 ++ '\n' :: (l3 ++ '\n' :: rest))) =
        (l1 ++ ['\n'], l2 ++ '\n' :: (l3 ++ '\n' :: rest)) := readline_append _ _ h1
    have e2 : readline (l2 ++ '\n' :: (l3 ++ '\n' :: rest)) =
        (l2 ++ ['\n'], l3 ++ '\n' :: rest) := readline_append _ _ h2
    have e3 : readline (l3 ++ '\n' :: rest) = (l3 ++ ['\n'], rest) :=
      readline_append _ _ h3
    show (restoreFromFile true c fs al f df).result = _
    simp only [restoreFromFile, hread, e1, e2, e3, removeNLCR_append_nl,
      _ReusableDriver_init, if_true]
    rfl

/-- Witness for C5's amended statement: file `g.tmp` holding just `abc`
without a trailing newline, and file `h.tmp` with five lines whose fourth and
fifth lines are ignored. -/
theorem restore_webdriver_malformed_file_spec_witness :
    (restore_webdriver true BCache.empty [("g.tmp", ("abc").toList)] (some "bar")
        (some "g.tmp") none none none true).result =
      Except.ok (1, RDriver.mk (some ("abc".toList)) (some []) (some [])) ∧
    (restore_webdriver true BCache.empty
        [("h.tmp", ("sid\nurl\n42\nextra1\nextra2\n").toList)] none
        (some "h.tmp") none none none false).result =
      Except.ok (1, RDriver.mk (some ("sid".toList)) (some ("url".toList))
        (some ("42".toList))) := by
  constructor
  · exact (restore_webdriver_malformed_file_spec BCache.empty
      [("g.tmp", ("abc").toList)] (some "bar") "g.tmp" true).2.2.1 ("abc".toList)
      (by decide) (by decide) (Or.inl (by decide))
  · have h := (restore_webdriver_malformed_file_spec BCache.empty
      [("h.tmp", ("sid\nurl\n42\nextra1\nextra2\n").toList)] none "h.tmp"
      false).2.2.2 ("sid".toList) ("url".toList) ("42".toList)
      (("extra1\nextra2\n").toList) (by decide) (by decide) (by decide) (by decide)
    exact h

/-- The shape of every file-writing `save_webdriver` call: some file name is
chosen and the serialized record is written under it. -/
theorem save_webdriver_file_shape (sid curl : List Char) (pid : Option (List Char))
    (aliases : List (String × Nat)) (idx : Nat) (f0 : String) (fs : FS) :
    ∃ F, save_webdriver sid curl pid aliases idx (some f0) fs =
      (SaveOut.fileName F, fsWrite fs F (sessionFileContent sid curl pid)) :=
  ⟨_, rfl⟩

/-- Reading back a well-formed session record: the file branch reconnects with
exactly the saved session id and server url (when the server still has the
session) and applies the `delete_file` policy. -/
theorem restoreFromFile_of_content (c : BCache) (fs : FS) (al : Option String)
    (f : String) (df : Bool) (sid curl : List Char) (pid : Option (List Char))
    (hread : fsRead fs f = some (sessionFileContent sid curl pid))
    (hsid : '\n' ∉ sid ∧ '\r' ∉ sid) (hcurl : '\n' ∉ curl ∧ '\r' ∉ curl) :
    ∃ spid, restoreFromFile true c fs al f df =
      { result := Except.ok (c.nextIndex, RDriver.mk (some sid) (some curl) (some spid)),
        cache := (c.register (RDriver.mk (some sid) (some curl) (some spid)) al).2,
        fs := if df then fsRemove fs f else fs,
        ops := FileOp.read f :: (if df then [FileOp.remove f] else []) } := by
  have e0 : sessionFileContent sid curl pid =
      sid ++ '\n' :: (curl ++ '\n' :: pidPart pid) := by
    simp [sessionFileContent, List.append_assoc]
  have h1 : readline (sessionFileContent sid curl pid) =
      (sid ++ ['\n'], curl ++ '\n' :: pidPart pid) := by
    rw [e0]
    exact readline_append _ _ hsid.1
  have h2 : readline (curl ++ '\n' :: pidPart pid) =
      (curl ++ ['\n'], pidPart pid) := readline_append _ _ hcurl.1
  refine ⟨removeNLCR (readline (pidPart pid)).1, ?_⟩
  simp only [restoreFromFile, hread, h1, h2, removeNLCR_line sid hsid,
    removeNLCR_line curl hcurl, _ReusableDriver_init, if_true]
  rfl

/-- C1: saving the current handle to a file and restoring from that file
yields a new handle, registered in the cache under the fresh index, whose
session id and server url equal the saved ones; the backing file is deleted
afterward when `delete_file` is true and kept when it is false. -/
theorem save_restore_roundtrip (sid curl : List Char) (pid : Option (List Char))
    (aliases : List (String × Nat)) (idx : Nat) (f0 f : String) (fs fs1 : FS)
    (c : BCache) (al : Option String) (df : Bool)
    (hsid : '\n' ∉ sid ∧ '\r' ∉ sid) (hcurl : '\n' ∉ curl ∧ '\r' ∉ curl)
    (hwf : ∀ p ∈ c.connections, p.1 < c.nextIndex)
    (hsave : save_webdriver sid curl pid aliases idx (some f0) fs =
      (SaveOut.fileName f, fs1)) :
    (∃ d, (restore_webdriver true c fs1 al (some f) none none none df).result =
        Except.ok (c.nextIndex, d) ∧
      d.session_id = some sid ∧ d.command_executor_url = some curl ∧
      ((restore_webdriver true c fs1 al (some f) none none none df).cache).lookupConn
        c.nextIndex = some d) ∧
    (df = true →
      fsRead (restore_webdriver true c fs1 al (some f) none none none df).fs f = none) ∧
    (df = false →
      (fsRead (restore_webdriver true c fs1 al (some f) none none none df).fs f).isSome) := by
  obtain ⟨F, hF⟩ := save_webdriver_file_shape sid curl pid aliases idx f0 fs
  rw [hF] at hsave
  simp only [Prod.mk.injEq, SaveOut.fileName.injEq] at hsave
  obtain ⟨hFf, hfs1⟩ := hsave
  have hread : fsRead fs1 f = some (sessionFileContent sid curl pid) := by
    rw [← hfs1, hFf]
    exact fsRead_fsWrite fs f _
  obtain ⟨spid, hr⟩ := restoreFromFile_of_content c fs1 al f df sid curl pid hread hsid hcurl
  have hrw : restore_webdriver true c fs1 al (some f) none none none df =
      restoreFromFile true c fs1 al f df := rfl
  rw [hrw, hr]
  refine ⟨⟨RDriver.mk (some sid) (some curl) (some spid), rfl, rfl, rfl, ?_⟩, ?_, ?_⟩
  · exact BCache.lookupConn_register c _ al hwf
  · intro hdf
    subst hdf
    exact fsRead_fsRemove fs1 f
  · intro hdf
    subst hdf
    show (fsRead fs1 f).isSome
    rw [hread]
    rfl

/-- Witness for C1: saving session `sid1` at `http://u` with pid 42 to
`f.tmp` from an empty cache/filesystem, then restoring with deletion. -/
theorem save_restore_roundtrip_witness :
    (∃ d, (restore_webdriver true BCache.empty
        (fsWrite [] "f.tmp" (sessionFileContent ("sid1".toList) ("http://u".toList)
          (some ("42".toList)))) none (some "f.tmp") none none none true).result =
        Except.ok (1, d) ∧
      d.session_id = some ("sid1".toList) ∧
      d.command_executor_url = some ("http://u".toList)) ∧
    fsRead (restore_webdriver true BCache.empty
        (fsWrite [] "f.tmp" (sessionFileContent ("sid1".toList) ("http://u".toList)
          (some ("42".toList)))) none (some "f.tmp") none none none true).fs
      "f.tmp" = none := by
  have h := save_restore_roundtrip ("sid1".toList) ("http://u".toList)
    (some ("42".toList)) [] 1 "f.tmp" "f.tmp" []
    (fsWrite [] "f.tmp" (sessionFileContent ("sid1".toList) ("http://u".toList)
      (some ("42".toList))))
    BCache.empty none true (by decide) (by decide) (by simp [BCache.empty]) rfl
  obtain ⟨⟨d, hd1, hd2, hd3, _⟩, hdel, _⟩ := h
  exact ⟨⟨d, hd1, hd2, hd3⟩, hdel rfl⟩

end Selenium2Library
